import Mathlib

set_option maxHeartbeats 1000000

/-!
# Verification of the TVM layout-suggestion analysis

Shallow embedding of `src/tir/schedule/analysis/layout.cc`: the stride
deriver (`GetStrides`), the flattened-index builder (`f_flatten_index`),
the split-expression collector (`SplitExprCollector`), and the entry point
`SuggestIndexMap`, together with theorems settling the frozen claims about
this subsystem.
-/

namespace TVMLayout

/-- Shallow embedding of the fragment of TVM `PrimExpr` that this file
builds: integer constants, variables (identified by a numeric id; dtype is
not modelled since it never influences the control flow of this file),
addition, multiplication, floor division and floor modulo. -/
inductive PrimExpr where
  | const (value : Int)
  | var (id : Nat)
  | add (a b : PrimExpr)
  | mul (a b : PrimExpr)
  | floordiv (a b : PrimExpr)
  | floormod (a b : PrimExpr)
deriving DecidableEq, Repr, Inhabited

/-- `as_const_int`: the expression is a statically known integer constant. -/
def as_const_int : PrimExpr → Option Int
  | .const v => some v
  | _ => none

/-- Evaluation of an embedded expression under an assignment of the
variables.  `floordiv`/`floormod` are TVM's floor-convention division,
i.e. `Int.fdiv`/`Int.fmod`. -/
def evalE (σ : Nat → Int) : PrimExpr → Int
  | .const v => v
  | .var i => σ i
  | .add a b => evalE σ a + evalE σ b
  | .mul a b => evalE σ a * evalE σ b
  | .floordiv a b => Int.fdiv (evalE σ a) (evalE σ b)
  | .floormod a b => Int.fmod (evalE σ a) (evalE σ b)

/-- A TVM buffer, reduced to the fields `GetStrides` and `SuggestIndexMap`
read: the shape and the (possibly empty) explicit strides. -/
structure Buffer where
  shape : List PrimExpr
  strides : List PrimExpr
deriving DecidableEq, Repr

/-- A `For` loop, reduced to the fields `SuggestIndexMap` reads: the loop
variable (by id), the domain min and the domain extent. -/
structure ForLoop where
  loop_var : Nat
  loop_min : PrimExpr
  loop_extent : PrimExpr
deriving DecidableEq, Repr

/-- Error message of the stride arity check in `GetStrides`
(`ICHECK_EQ(buffer->strides.size(), buffer->shape.size())`). -/
def stridesArityMsg : String := "ICHECK failed: strides size does not equal shape size"

/-- Error message of a checked out-of-range TVM `Array` element access. -/
def arrayOobMsg : String := "ICHECK failed: array index out of range"

/-- The right-to-left loop of `GetStrides`: walking the reversed shape,
`strides.Set(i, stride); stride = stride * shape[i]`.  The argument list is
the reversed shape; the result list is in original (front-to-back) order. -/
def stridesLoop : List PrimExpr → PrimExpr → List PrimExpr
  | [], _ => []
  | s :: rest, stride => stridesLoop rest (PrimExpr.mul stride s) ++ [stride]

/-- `GetStrides` of `layout.cc`: explicit strides are returned unchanged
after the arity `ICHECK`; otherwise row-major strides are derived (empty
for rank 0).  An `ICHECK` failure is `Except.error`. -/
def GetStrides (buffer : Buffer) : Except String (List PrimExpr) :=
  if buffer.strides.isEmpty then
    .ok (stridesLoop buffer.shape.reverse (PrimExpr.const 1))
  else if buffer.strides.length = buffer.shape.length then
    .ok buffer.strides
  else
    .error stridesArityMsg

/-- The loop body of `f_flatten_index`, counting down the remaining
iterations: `flatten_index = flatten_index + strides[i] * indices[i]`.
Both element accesses are TVM `Array` accesses, which are bounds-checked
by `ICHECK`. -/
def flattenGo (strides indices : List PrimExpr) (i : Nat) :
    Nat → PrimExpr → Except String PrimExpr
  | 0, acc => .ok acc
  | n + 1, acc =>
    match strides[i]?, indices[i]? with
    | some s, some ix =>
        flattenGo strides indices (i + 1) n (PrimExpr.add acc (PrimExpr.mul s ix))
    | _, _ => .error arrayOobMsg

/-- The `f_flatten_index` functor of `SuggestIndexMap` Step 2: the sum
`Σ strides[i] * indices[i]` over `i < ndim`, starting from the constant 0.
`ndim` is the captured buffer rank; indices beyond position `ndim - 1` are
never read. -/
def f_flatten_index (ndim : Nat) (strides indices : List PrimExpr) :
    Except String PrimExpr :=
  flattenGo strides indices 0 ndim (PrimExpr.const 0)

/-- The simplified split expression collected by `SplitExprCollector`:
source variable id, statically known lower factor and extent. -/
structure SplitExpr where
  source : Nat
  lower_factor : Int
  extent : Int
deriving DecidableEq, Repr, Inhabited

/-- An `arith::IterSplitExpr` as consumed by `SplitExprCollector::Visit`:
its source's source is either a direct variable, a nested
`arith::IterSumExpr` (represented by that sum's argument list, since
`Visit` reads nothing else of it), or a node of any other kind.  The
lower factor, extent and scale are carried verbatim; `Visit` reads the
lower factor and extent of variable-sourced nodes only. -/
inductive IterSplit where
  | leafVar (v : Nat) (lowerFactorE extentE scaleE : PrimExpr)
  | nestedSum (args : List IterSplit) (lowerFactorE extentE scaleE : PrimExpr)
  | badSource (lowerFactorE extentE scaleE : PrimExpr)

instance : Inhabited IterSplit :=
  ⟨.badSource default default default⟩

/-- An `arith::IterSumExpr`: the argument list of split expressions and the
base (which `Visit` ignores). -/
structure IterSumExpr where
  args : List IterSplit
  base : PrimExpr

instance : Inhabited IterSumExpr := ⟨⟨[], default⟩⟩

/-- Mutable state of `SplitExprCollector`: the `failed_` flag and the
collected `exprs_`. -/
structure CState where
  failed : Bool
  exprs : List SplitExpr
deriving DecidableEq, Repr

/-- Error message of the `ICHECK(false) << "Unexpected type ..."` branch of
`SplitExprCollector::Visit`. -/
def unexpectedTypeMsg : String := "ICHECK failed: unexpected source type"

mutual

/-- `SplitExprCollector::Visit(IterSplitExpr)`: a variable source with
constant lower factor and extent is appended to `exprs_`; a non-constant
factor sets `failed_` and returns; a nested sum is visited recursively; any
other source is a fatal `ICHECK(false)`. -/
def visitSplit : IterSplit → CState → Except String CState
  | .leafVar v lf ext _, st =>
    match as_const_int lf, as_const_int ext with
    | some l, some e => .ok ⟨st.failed, st.exprs ++ [⟨v, l, e⟩]⟩
    | _, _ => .ok ⟨true, st.exprs⟩
  | .nestedSum args _ _ _, st => visitArgs args st
  | .badSource _ _ _, _ => .error unexpectedTypeMsg

/-- `SplitExprCollector::Visit(IterSumExpr)` body: visit each argument in
order (the `failed_` flag does not stop the loop; only `ICHECK` does). -/
def visitArgs : List IterSplit → CState → Except String CState
  | [], st => .ok st
  | a :: rest, st =>
    match visitSplit a st with
    | .ok st' => visitArgs rest st'
    | .error m => .error m

end

/-- `SplitExprCollector::Visit(IterSumExpr)`. -/
def visitSum (e : IterSumExpr) (st : CState) : Except String CState :=
  visitArgs e.args st

/-- Modelled from the spec: the generic symbolic-expression simplifier
(`arith::Analyzer::Simplify`) is an out-of-scope collaborator; the spec
only requires it to return a semantically equivalent expression, so it is
modelled as the identity.  `Analyzer::Bind` feeds this collaborator and is
accordingly a no-op here. -/
def simplify (e : PrimExpr) : PrimExpr := e

/-- The iterator domains handed to the detection collaborator: for each
loop, its variable, domain min and domain extent (in loop-nest order). -/
abbrev IterDom := List (Nat × PrimExpr × PrimExpr)

/-- Modelled from the spec: the external affine-detection collaborator
(`arith::DetectIterMap`).  Only its output contract is consumed, so it is a
parameter: from the flattened index, the iterator domains, the predicate
and the bijectivity flag it produces a list of normalized sum-of-splits
expressions (0 or 1 entries expected). -/
abbrev Detector := PrimExpr → IterDom → PrimExpr → Bool → List IterSumExpr

/-- Error message of `ICHECK_EQ(iter_sum_exprs.size(), 1)` in
`SplitExprCollector::Collect`. -/
def iterSumSizeMsg : String := "ICHECK failed: expected exactly one iter sum"

/-- `SplitExprCollector::Collect`: simplify the index, run the detection
collaborator; no decomposition means the empty list; two or more
decompositions are a fatal `ICHECK`; a decomposition with no split terms
means the empty list; otherwise visit it, and a raised `failed_` flag
also means the empty list. -/
def Collect (detect : Detector) (index : PrimExpr) (input_iters : IterDom)
    (predicate : PrimExpr) (require_bijective : Bool) :
    Except String (List SplitExpr) :=
  match detect (simplify index) input_iters predicate require_bijective with
  | [] => .ok []
  | [e] =>
    match e.args with
    | [] => .ok []
    | _ =>
      match visitSum e ⟨false, []⟩ with
      | .ok st => if st.failed then .ok [] else .ok st.exprs
      | .error m => .error m
  | _ => .error iterSumSizeMsg

/-- The `var2id` mapping of `SuggestIndexMap` Step 1: position of a loop
variable in the loop sequence.  `emplace` keeps the first insertion, hence
the first occurrence; the C++ lookup `var2id.at` is only ever applied to
variables the detection collaborator took from `input_iters`, so the
total `findIdx` (length when absent) agrees with it on all reachable
inputs. -/
def var2id (loops : List ForLoop) (v : Nat) : Nat :=
  (loops.map ForLoop.loop_var).findIdx (fun x => x = v)

/-- The strict comparator of `SuggestIndexMap` Step 4, acting on positions
into `split_exprs`: ascending nesting position of the source variable,
then descending lower factor. -/
def splitLt (split_exprs : List SplitExpr) (loops : List ForLoop)
    (ia ib : Nat) : Bool :=
  let a := split_exprs.getD ia default
  let b := split_exprs.getD ib default
  let aId := var2id loops a.source
  let bId := var2id loops b.source
  if aId ≠ bId then decide (aId < bId) else decide (a.lower_factor > b.lower_factor)

/-- The non-strict order underlying the Step 4 sort: `a` may precede `b`
exactly when the strict comparator does not demand the converse. -/
def orderLe (split_exprs : List SplitExpr) (loops : List ForLoop)
    (ia ib : Nat) : Prop :=
  splitLt split_exprs loops ib ia = false

instance (split_exprs : List SplitExpr) (loops : List ForLoop) :
    DecidableRel (orderLe split_exprs loops) := fun _ _ =>
  inferInstanceAs (Decidable (_ = false))

/-- `SuggestIndexMap` Step 4: the sorted `order` array.  `std::sort`
guarantees exactly a permutation of `0, ..., n-1` that is weakly sorted by
the comparator; it is realized here by insertion sort over the non-strict
order. -/
def canonicalOrder (split_exprs : List SplitExpr) (loops : List ForLoop) :
    List Nat :=
  List.insertionSort (orderLe split_exprs loops) (List.range split_exprs.length)

/-- The digit-extraction loop of `f_alter_layout` Step 5.1, over the given
extent sequence: at each step the running index is simplified, the
simplified `floormod` by the extent is collected, and the running index
becomes the `floordiv` by the extent. -/
def splitDigitsLoop : List Int → PrimExpr → List PrimExpr
  | [], _ => []
  | e :: rest, index =>
    let index' := simplify index
    simplify (PrimExpr.floormod index' (.const e)) ::
      splitDigitsLoop rest (PrimExpr.floordiv index' (.const e))

/-- The reorder loop of `f_alter_layout` Step 5.2:
`results.push_back(split[order[i]])`.  The C++ `std::vector` access is
unchecked; `order` is always a permutation of the positions of `split`, so
the checked model agrees on all reachable inputs. -/
def reorderIdx (split : List PrimExpr) : List Nat → Except String (List PrimExpr)
  | [] => .ok []
  | i :: rest =>
    match split[i]? with
    | some e =>
      match reorderIdx split rest with
      | .ok l => .ok (e :: l)
      | .error m => .error m
    | none => .error arrayOobMsg

/-- Error message of `ICHECK_EQ(indices.size(), shape.size())` in
`f_alter_layout`. -/
def alterLayoutArityMsg : String := "ICHECK failed: indices size does not equal shape size"

/-- The `f_alter_layout` functor of `SuggestIndexMap` Step 5: check the
placeholder arity against the shape, rebuild the flattened index from the
placeholders, extract digits against the extents of `split_exprs` from the
last collected component to the first, reverse, and reorder through
`order`.  (`Analyzer::Bind` on the placeholders only feeds the out-of-scope
simplifier and has no effect under the identity model.) -/
def f_alter_layout (strides : List PrimExpr) (split_exprs : List SplitExpr)
    (order : List Nat) (shape : List PrimExpr) (indices : List Nat) :
    Except String (List PrimExpr) :=
  if indices.length = shape.length then
    match f_flatten_index shape.length strides (indices.map PrimExpr.var) with
    | .ok index =>
      let split := splitDigitsLoop ((split_exprs.map SplitExpr.extent).reverse) index
      reorderIdx split.reverse order
    | .error m => .error m
  else .error alterLayoutArityMsg

/-- A TVM `IndexMap`: the bound placeholder variables and the final index
expressions over them. -/
structure IndexMap where
  initial_indices : List Nat
  final_indices : List PrimExpr
deriving DecidableEq, Repr

/-- Modelled from the spec: `IndexMap::FromFunc(ndim, f)` lives outside
this excerpt; per the spec it creates one fresh placeholder coordinate per
dimension of the original buffer shape (arity = rank) and applies the
supplied function to them. -/
def IndexMap.fromFunc (ndim : Nat)
    (f : List Nat → Except String (List PrimExpr)) : Except String IndexMap :=
  match f (List.range ndim) with
  | .ok fin => .ok ⟨List.range ndim, fin⟩
  | .error m => .error m

/-- The iterator-domain list of `SuggestIndexMap` Step 1. -/
def itersOf (loops : List ForLoop) : IterDom :=
  loops.map (fun l => (l.loop_var, l.loop_min, l.loop_extent))

/-- `SuggestIndexMap` of `layout.cc`, parameterized by the detection
collaborator: derive strides (Step 2 capture), flatten the supplied
indices, collect split expressions (Step 3, with bijectivity not
required), return no suggestion when the list is empty, otherwise sort
(Step 4) and build the index map (Step 5).  The outer `Except` is a fatal
`ICHECK`; the inner `Option` is the suggestion. -/
def SuggestIndexMap (detect : Detector) (buffer : Buffer)
    (indices : List PrimExpr) (loops : List ForLoop) (predicate : PrimExpr) :
    Except String (Option IndexMap) :=
  let ndim := buffer.shape.length
  match GetStrides buffer with
  | .error m => .error m
  | .ok strides =>
    match f_flatten_index ndim strides indices with
    | .error m => .error m
    | .ok flat =>
      match Collect detect flat (itersOf loops) predicate false with
      | .error m => .error m
      | .ok split_exprs =>
        if split_exprs.isEmpty then .ok none
        else
          match IndexMap.fromFunc ndim
              (f_alter_layout strides split_exprs
                (canonicalOrder split_exprs loops) buffer.shape) with
          | .ok im => .ok (some im)
          | .error m => .error m

/-! ## Specification-side definitions

Independent definitions written from the spec's wording, used to compare
the code's behaviour against the spec (refinement claims). -/

mutual

/-- DFS flattening of the sum-of-splits tree, written from the spec: the
convertible leaves (statically known lower factor and extent) in encounter
order of the depth-first walk, nested structure discarded. -/
def dfsLeavesSplit : IterSplit → List SplitExpr
  | .leafVar v lf ext _ =>
    match as_const_int lf, as_const_int ext with
    | some l, some e => [⟨v, l, e⟩]
    | _, _ => []
  | .nestedSum args _ _ _ => dfsLeavesArgs args
  | .badSource _ _ _ => []

/-- DFS flattening of a list of split nodes, in order. -/
def dfsLeavesArgs : List IterSplit → List SplitExpr
  | [] => []
  | a :: rest => dfsLeavesSplit a ++ dfsLeavesArgs rest

end

mutual

/-- Some variable-sourced split node of the tree has a lower factor or
extent that is not a statically known integer constant. -/
def hasNonConstSplit : IterSplit → Bool
  | .leafVar _ lf ext _ => (as_const_int lf).isNone || (as_const_int ext).isNone
  | .nestedSum args _ _ _ => hasNonConstArgs args
  | .badSource _ _ _ => false

/-- `hasNonConstSplit` over a list of split nodes. -/
def hasNonConstArgs : List IterSplit → Bool
  | [] => false
  | a :: rest => hasNonConstSplit a || hasNonConstArgs rest

end

mutual

/-- Some split node of the tree has a source that is neither a direct
variable nor a nested sum. -/
def containsOtherSplit : IterSplit → Bool
  | .leafVar _ _ _ _ => false
  | .nestedSum args _ _ _ => containsOtherArgs args
  | .badSource _ _ _ => true

/-- `containsOtherSplit` over a list of split nodes. -/
def containsOtherArgs : List IterSplit → Bool
  | [] => false
  | a :: rest => containsOtherSplit a || containsOtherArgs rest

end

/-- The output-tuple construction exactly as claim C2 words it: decompose
the flattened placeholder index digit-by-digit with the extents of the
components taken in the canonical sorted order, from the last sorted
component to the first, then reverse the collected remainders; the
reversed sequence directly is the output tuple. -/
def claimDescribedOutput (sortedComponents : List SplitExpr) (flat : PrimExpr) :
    List PrimExpr :=
  (splitDigitsLoop ((sortedComponents.map SplitExpr.extent).reverse) flat).reverse

/-! ## Concrete instances

Concrete buffers, loop nests and detector outputs used by the witness and
counterexample theorems. -/

/-- Example A: rank-1 buffer of shape `[32]`. -/
def bufA : Buffer := ⟨[.const 32], []⟩

/-- Example A: loops `x = var 0 ∈ [0, 4)` and `y = var 1 ∈ [0, 8)`. -/
def loopsA : List ForLoop := [⟨0, .const 0, .const 4⟩, ⟨1, .const 0, .const 8⟩]

/-- Example A: the single index expression `y * 4 + x`. -/
def idxA : List PrimExpr := [.add (.mul (.var 1) (.const 4)) (.var 0)]

/-- Example A: the decomposition `(y // 1 % 8) * 4 + (x // 1 % 4) * 1` as
the collaborator would normalize `y * 4 + x` (scale-descending order). -/
def sumA : IterSumExpr :=
  ⟨[.leafVar 1 (.const 1) (.const 8) (.const 4),
    .leafVar 0 (.const 1) (.const 4) (.const 1)], .const 0⟩

/-- Example A detector: returns the decomposition `sumA`. -/
def detectA : Detector := fun _ _ _ _ => [sumA]

/-- Example A: the derived strides of `bufA`. -/
def stridesA : List PrimExpr := [.const 1]

/-- Example A: the flattened form of `idxA`. -/
def flatA : PrimExpr :=
  .add (.const 0) (.mul (.const 1) (.add (.mul (.var 1) (.const 4)) (.var 0)))

/-- Example A: the collected split expressions, in encounter order. -/
def splitsA : List SplitExpr := [⟨1, 1, 8⟩, ⟨0, 1, 4⟩]

/-- Example A: the flattened placeholder index over the fresh coordinate
`var 0`. -/
def phFlatA : PrimExpr := .add (.const 0) (.mul (.const 1) (.var 0))

/-- Example A: the index map `SuggestIndexMap` produces. -/
def imA : IndexMap :=
  ⟨[0], [.floormod phFlatA (.const 4),
         .floormod (.floordiv phFlatA (.const 4)) (.const 8)]⟩

/-- Example A: the split components in canonical sorted order. -/
def sortedCompsA : List SplitExpr := [⟨0, 1, 4⟩, ⟨1, 1, 8⟩]

/-- Example A: assignment sending every variable to 5. -/
def exA : Nat → Int := fun _ => 5

/-- A detector that finds no decomposition. -/
def detectNone : Detector := fun _ _ _ _ => []

/-- A buffer whose explicit strides disagree in length with its shape. -/
def bufBadStrides : Buffer := ⟨[.const 4], [.const 1, .const 1]⟩

/-- A rank-1 buffer of shape `[4]`. -/
def bufR1 : Buffer := ⟨[.const 4], []⟩

/-- A single loop `x = var 0 ∈ [0, 4)`. -/
def loopsR1 : List ForLoop := [⟨0, .const 0, .const 4⟩]

/-- A detector returning the decomposition `x // 1 % 4` over `bufR1`. -/
def detectR1 : Detector :=
  fun _ _ _ _ => [⟨[.leafVar 0 (.const 1) (.const 4) (.const 1)], .const 0⟩]

/-- The index map `SuggestIndexMap` produces for `bufR1` with `detectR1`. -/
def imR1 : IndexMap :=
  ⟨[0], [.floormod (.add (.const 0) (.mul (.const 1) (.var 0))) (.const 4)]⟩

/-- A decomposition whose split node has a dynamic (non-constant) lower
factor `var 5`. -/
def sumNC : IterSumExpr := ⟨[.leafVar 0 (.var 5) (.const 4) (.const 1)], .const 0⟩

/-- A detector returning the dynamic-factor decomposition `sumNC`. -/
def detectNC : Detector := fun _ _ _ _ => [sumNC]

/-- A decomposition holding a node of unexpected source type, nested after
a dynamic-factor leaf. -/
def sumBad : IterSumExpr :=
  ⟨[.leafVar 0 (.var 7) (.const 2) (.const 1),
    .nestedSum [.badSource (.const 1) (.const 1) (.const 1)]
      (.const 1) (.const 1) (.const 1)], .const 0⟩

/-- A detector returning the malformed decomposition `sumBad`. -/
def detectBad : Detector := fun _ _ _ _ => [sumBad]

/-- A decomposition with no split terms. -/
def sumEmptyArgs : IterSumExpr := ⟨[], .const 0⟩

/-- A detector returning a decomposition with no split terms. -/
def detectEmptyArgs : Detector := fun _ _ _ _ => [sumEmptyArgs]

/-- A detector returning two decompositions. -/
def detectTwo : Detector := fun _ _ _ _ => [sumEmptyArgs, sumEmptyArgs]

/-- A sum-of-splits tree with a nested sum, for the DFS-flattening
witness. -/
def sumW : IterSumExpr :=
  ⟨[.leafVar 0 (.const 1) (.const 4) (.const 1),
    .nestedSum [.leafVar 1 (.const 1) (.const 2) (.const 1),
                .leafVar 2 (.const 1) (.const 3) (.const 1)]
      (.const 1) (.const 1) (.const 1)], .const 0⟩

/-- A collector state with one already-collected component. -/
def stW : CState := ⟨false, [⟨9, 9, 9⟩]⟩

/-! ## Lemmas about the stride deriver -/

theorem stridesLoop_length (l : List PrimExpr) (acc : PrimExpr) :
    (stridesLoop l acc).length = l.length := by
  induction l generalizing acc with
  | nil => rfl
  | cons s rest ih => simp [stridesLoop, ih]

theorem stridesLoop_reverse_append (sh : List PrimExpr) (a acc : PrimExpr) :
    stridesLoop (sh ++ [a]).reverse acc =
      stridesLoop sh.reverse (.mul acc a) ++ [acc] := by
  simp [stridesLoop]

theorem stridesLoop_reverse_length (sh : List PrimExpr) (acc : PrimExpr) :
    (stridesLoop sh.reverse acc).length = sh.length := by
  rw [stridesLoop_length, List.length_reverse]

theorem stridesLoop_reverse_getLast (sh : List PrimExpr) (acc : PrimExpr)
    (h : sh ≠ []) : (stridesLoop sh.reverse acc).getLast? = some acc := by
  induction sh using List.reverseRecOn with
  | nil => exact absurd rfl h
  | append_singleton sh a _ =>
    rw [stridesLoop_reverse_append, List.getLast?_concat]

theorem stridesLoop_reverse_getElem (sh : List PrimExpr) (acc : PrimExpr)
    (i : Nat) (h : i + 1 < sh.length) :
    (stridesLoop sh.reverse acc)[i]? =
      some (.mul ((stridesLoop sh.reverse acc).getD (i + 1) default)
        (sh.getD (i + 1) default)) := by
  induction sh using List.reverseRecOn generalizing acc with
  | nil => simp at h
  | append_singleton sh a ih =>
    rw [stridesLoop_reverse_append]
    rcases Nat.lt_or_ge (i + 1) sh.length with hlt | hge
    · have hi : i < (stridesLoop sh.reverse (.mul acc a)).length := by
        rw [stridesLoop_reverse_length]; omega
      have hi1 : i + 1 < (stridesLoop sh.reverse (.mul acc a)).length := by
        rw [stridesLoop_reverse_length]; omega
      have e1 : (stridesLoop sh.reverse (.mul acc a) ++ [acc]).getD (i + 1) default
          = (stridesLoop sh.reverse (.mul acc a)).getD (i + 1) default := by
        rw [List.getD_eq_getElem?_getD, List.getD_eq_getElem?_getD,
          List.getElem?_append_left hi1]
      have e2 : (sh ++ [a]).getD (i + 1) default = sh.getD (i + 1) default := by
        rw [List.getD_eq_getElem?_getD, List.getD_eq_getElem?_getD,
          List.getElem?_append_left hlt]
      rw [List.getElem?_append_left hi, e1, e2, ih (.mul acc a) hlt]
    · have hlen : sh.length = i + 1 := by
        simp only [List.length_append, List.length_cons, List.length_nil] at h
        omega
      have hne : sh ≠ [] := by
        intro hnil; rw [hnil] at hlen; simp at hlen
      have hi : i < (stridesLoop sh.reverse (.mul acc a)).length := by
        rw [stridesLoop_reverse_length]; omega
      have hlast := stridesLoop_reverse_getLast sh (.mul acc a) hne
      rw [List.getLast?_eq_getElem?, stridesLoop_reverse_length, hlen] at hlast
      simp only [Nat.add_sub_cancel] at hlast
      have e1 : (stridesLoop sh.reverse (.mul acc a) ++ [acc]).getD (i + 1) default
          = acc := by
        rw [List.getD_eq_getElem?_getD,
          List.getElem?_append_right (by rw [stridesLoop_reverse_length]; omega),
          stridesLoop_reverse_length, hlen, Nat.sub_self]
        rfl
      have e2 : (sh ++ [a]).getD (i + 1) default = a := by
        rw [List.getD_eq_getElem?_getD, List.getElem?_append_right hlen.le,
          hlen, Nat.sub_self]
        rfl
      rw [List.getElem?_append_left hi, e1, e2, hlast]

theorem GetStrides_derived (buffer : Buffer) (h : buffer.strides = []) :
    GetStrides buffer = .ok (stridesLoop buffer.shape.reverse (.const 1)) := by
  simp [GetStrides, h]

theorem GetStrides_explicit (buffer : Buffer) (h : buffer.strides ≠ [])
    (hlen : buffer.strides.length = buffer.shape.length) :
    GetStrides buffer = .ok buffer.strides := by
  simp [GetStrides, h, hlen, List.isEmpty_iff]

theorem GetStrides_mismatch (buffer : Buffer) (h : buffer.strides ≠ [])
    (hlen : buffer.strides.length ≠ buffer.shape.length) :
    GetStrides buffer = .error stridesArityMsg := by
  simp [GetStrides, h, hlen, List.isEmpty_iff]

theorem GetStrides_length (buffer : Buffer) (strides : List PrimExpr)
    (h : GetStrides buffer = .ok strides) :
    strides.length = buffer.shape.length := by
  by_cases he : buffer.strides = []
  · rw [GetStrides_derived buffer he] at h
    cases h
    exact stridesLoop_reverse_length _ _
  · by_cases hlen : buffer.strides.length = buffer.shape.length
    · rw [GetStrides_explicit buffer he hlen] at h
      cases h
      exact hlen
    · rw [GetStrides_mismatch buffer he hlen] at h
      cases h

/-! ## Lemmas about the flattened-index builder -/

theorem flattenGo_error (strides indices : List PrimExpr) (i n : Nat)
    (acc : PrimExpr) (h0 : i ≤ indices.length) (h1 : indices.length < i + n)
    (h2 : i + n ≤ strides.length) :
    flattenGo strides indices i n acc = .error arrayOobMsg := by
  induction n generalizing i acc with
  | zero => omega
  | succ n ih =>
    rcases Nat.lt_or_ge i indices.length with hlt | hge
    · have hs : i < strides.length := by omega
      rw [flattenGo, List.getElem?_eq_getElem hs, List.getElem?_eq_getElem hlt]
      exact ih (i + 1) _ (by omega) (by omega) (by omega)
    · have hidx : indices[i]? = none := List.getElem?_eq_none (by omega)
      rw [flattenGo, hidx]
      cases hstr : strides[i]? <;> rfl

theorem flattenGo_take (strides indices : List PrimExpr) (i n m : Nat)
    (acc : PrimExpr) (h : i + n ≤ m) :
    flattenGo strides (indices.take m) i n acc = flattenGo strides indices i n acc := by
  induction n generalizing i acc with
  | zero => rfl
  | succ n ih =>
    rw [flattenGo, flattenGo, List.getElem?_take, if_pos (by omega)]
    cases hs : strides[i]? <;> cases hx : indices[i]? <;>
      first
      | rfl
      | exact ih (i + 1) _ (by omega)

theorem flattenGo_ok (strides indices : List PrimExpr) (i n : Nat)
    (acc : PrimExpr) (h1 : i + n ≤ strides.length) (h2 : i + n ≤ indices.length) :
    ∃ r, flattenGo strides indices i n acc = .ok r := by
  induction n generalizing i acc with
  | zero => exact ⟨acc, rfl⟩
  | succ n ih =>
    rw [flattenGo, List.getElem?_eq_getElem (show i < strides.length by omega),
      List.getElem?_eq_getElem (show i < indices.length by omega)]
    exact ih (i + 1) _ (by omega) (by omega)

theorem f_flatten_index_rank0 (strides indices : List PrimExpr) :
    f_flatten_index 0 strides indices = .ok (.const 0) := rfl

/-! ## Lemmas about the split-expression collector -/

mutual

theorem visitSplit_clean (e : IterSplit) (st : CState)
    (h : containsOtherSplit e = false) :
    visitSplit e st = .ok ⟨st.failed || hasNonConstSplit e,
      st.exprs ++ dfsLeavesSplit e⟩ := by
  match e with
  | .leafVar v lf ext sc =>
    cases hl : as_const_int lf <;> cases hx : as_const_int ext <;>
      simp [visitSplit, hasNonConstSplit, dfsLeavesSplit, hl, hx]
  | .nestedSum args lf ext sc =>
    have := visitArgs_clean args st (by simpa [containsOtherSplit] using h)
    simpa [visitSplit, hasNonConstSplit, dfsLeavesSplit] using this
  | .badSource lf ext sc => simp [containsOtherSplit] at h

theorem visitArgs_clean (l : List IterSplit) (st : CState)
    (h : containsOtherArgs l = false) :
    visitArgs l st = .ok ⟨st.failed || hasNonConstArgs l,
      st.exprs ++ dfsLeavesArgs l⟩ := by
  match l with
  | [] => simp [visitArgs, hasNonConstArgs, dfsLeavesArgs]
  | a :: rest =>
    rw [containsOtherArgs, Bool.or_eq_false_iff] at h
    rw [visitArgs, visitSplit_clean a st h.1]
    show visitArgs rest ⟨st.failed || hasNonConstSplit a,
      st.exprs ++ dfsLeavesSplit a⟩ = _
    rw [visitArgs_clean rest _ h.2]
    simp [hasNonConstArgs, dfsLeavesArgs, Bool.or_assoc]

end

mutual

theorem visitSplit_other (e : IterSplit) (st : CState)
    (h : containsOtherSplit e = true) :
    visitSplit e st = .error unexpectedTypeMsg := by
  match e with
  | .leafVar v lf ext sc => simp [containsOtherSplit] at h
  | .nestedSum args lf ext sc =>
    have := visitArgs_other args st (by simpa [containsOtherSplit] using h)
    simpa [visitSplit] using this
  | .badSource lf ext sc => rfl

theorem visitArgs_other (l : List IterSplit) (st : CState)
    (h : containsOtherArgs l = true) :
    visitArgs l st = .error unexpectedTypeMsg := by
  match l with
  | [] => simp [containsOtherArgs] at h
  | a :: rest =>
    rw [containsOtherArgs] at h
    cases ho : containsOtherSplit a with
    | true =>
      rw [visitArgs, visitSplit_other a st ho]
    | false =>
      rw [ho, Bool.false_or] at h
      rw [visitArgs, visitSplit_clean a st ho]
      exact visitArgs_other rest _ h

end

theorem Collect_detect_empty (detect : Detector) (index : PrimExpr)
    (iters : IterDom) (predicate : PrimExpr) (bij : Bool)
    (h : detect (simplify index) iters predicate bij = []) :
    Collect detect index iters predicate bij = .ok [] := by
  simp [Collect, h]

theorem Collect_args_empty (detect : Detector) (index : PrimExpr)
    (iters : IterDom) (predicate : PrimExpr) (bij : Bool) (e : IterSumExpr)
    (h : detect (simplify index) iters predicate bij = [e]) (ha : e.args = []) :
    Collect detect index iters predicate bij = .ok [] := by
  simp [Collect, h, ha]

theorem Collect_two (detect : Detector) (index : PrimExpr) (iters : IterDom)
    (predicate : PrimExpr) (bij : Bool) (e1 e2 : IterSumExpr)
    (rest : List IterSumExpr)
    (h : detect (simplify index) iters predicate bij = e1 :: e2 :: rest) :
    Collect detect index iters predicate bij = .error iterSumSizeMsg := by
  simp [Collect, h]

theorem Collect_clean (detect : Detector) (index : PrimExpr) (iters : IterDom)
    (predicate : PrimExpr) (bij : Bool) (e : IterSumExpr)
    (h : detect (simplify index) iters predicate bij = [e])
    (hno : containsOtherArgs e.args = false) :
    Collect detect index iters predicate bij =
      .ok (if hasNonConstArgs e.args then [] else dfsLeavesArgs e.args) := by
  obtain ⟨args, base⟩ := e
  cases args with
  | nil => simp [Collect, h, hasNonConstArgs, dfsLeavesArgs]
  | cons a rest =>
    have hv := visitArgs_clean (a :: rest) ⟨false, []⟩ hno
    simp only [Collect, h, visitSum, hv, Bool.false_or, List.nil_append]
    cases hnc : hasNonConstArgs (a :: rest) <;> simp

theorem Collect_bad (detect : Detector) (index : PrimExpr) (iters : IterDom)
    (predicate : PrimExpr) (bij : Bool) (e : IterSumExpr)
    (h : detect (simplify index) iters predicate bij = [e])
    (ho : containsOtherArgs e.args = true) :
    Collect detect index iters predicate bij = .error unexpectedTypeMsg := by
  obtain ⟨args, base⟩ := e
  cases args with
  | nil => simp [containsOtherArgs] at ho
  | cons a rest =>
    have hv := visitArgs_other (a :: rest) ⟨false, []⟩ ho
    simp only [Collect, h, visitSum, hv]

/-! ## Lemmas about the canonical order -/

theorem splitLt_iff (se : List SplitExpr) (lo : List ForLoop) (ia ib : Nat) :
    splitLt se lo ia ib = true ↔
      (var2id lo (se.getD ia default).source < var2id lo (se.getD ib default).source ∨
       (var2id lo (se.getD ia default).source = var2id lo (se.getD ib default).source ∧
        (se.getD ib default).lower_factor < (se.getD ia default).lower_factor)) := by
  simp only [splitLt]
  split_ifs with h
  · simp only [decide_eq_true_eq]
    constructor
    · exact Or.inl
    · rintro (hlt | ⟨heq, _⟩)
      · exact hlt
      · exact absurd heq h
  · push_neg at h
    simp only [decide_eq_true_eq, gt_iff_lt]
    constructor
    · intro hlf
      exact Or.inr ⟨h, hlf⟩
    · rintro (hlt | ⟨_, hlf⟩)
      · omega
      · exact hlf

theorem orderLe_iff (se : List SplitExpr) (lo : List ForLoop) (ia ib : Nat) :
    orderLe se lo ia ib ↔
      (var2id lo (se.getD ia default).source ≤ var2id lo (se.getD ib default).source ∧
       (var2id lo (se.getD ia default).source = var2id lo (se.getD ib default).source →
        (se.getD ib default).lower_factor ≤ (se.getD ia default).lower_factor)) := by
  rw [orderLe, ← Bool.not_eq_true, splitLt_iff]
  constructor
  · intro h
    push_neg at h
    exact ⟨by omega, fun he => by
      have := h.2 he.symm
      omega⟩
  · intro h
    push_neg
    exact ⟨by omega, fun he => by
      have := h.2 he.symm
      omega⟩

theorem orderLe_total (se : List SplitExpr) (lo : List ForLoop) (ia ib : Nat) :
    orderLe se lo ia ib ∨ orderLe se lo ib ia := by
  rw [orderLe_iff, orderLe_iff]
  omega

theorem orderLe_trans (se : List SplitExpr) (lo : List ForLoop) (ia ib ic : Nat)
    (h1 : orderLe se lo ia ib) (h2 : orderLe se lo ib ic) :
    orderLe se lo ia ic := by
  rw [orderLe_iff] at h1 h2 ⊢
  omega

theorem canonicalOrder_sorted (se : List SplitExpr) (lo : List ForLoop) :
    (canonicalOrder se lo).Sorted (orderLe se lo) := by
  haveI : IsTotal Nat (orderLe se lo) := ⟨orderLe_total se lo⟩
  haveI : IsTrans Nat (orderLe se lo) := ⟨orderLe_trans se lo⟩
  exact List.sorted_insertionSort _ _

theorem canonicalOrder_mem (se : List SplitExpr) (lo : List ForLoop) (i : Nat)
    (h : i ∈ canonicalOrder se lo) : i < se.length := by
  rw [canonicalOrder, List.mem_insertionSort, List.mem_range] at h
  exact h

theorem canonicalOrder_length (se : List SplitExpr) (lo : List ForLoop) :
    (canonicalOrder se lo).length = se.length := by
  rw [canonicalOrder, List.length_insertionSort, List.length_range]

theorem findIdx_eq_inj {l : List Nat} {v w : Nat} (hv : v ∈ l) (hw : w ∈ l)
    (h : l.findIdx (fun x => x = v) = l.findIdx (fun x => x = w)) : v = w := by
  induction l with
  | nil => cases hv
  | cons x rest ih =>
    rw [List.findIdx_cons, List.findIdx_cons] at h
    by_cases hxv : x = v <;> by_cases hxw : x = w
    · exact hxv.symm.trans hxw
    · rw [decide_eq_true hxv, decide_eq_false hxw] at h
      simp only [cond_true, cond_false] at h
      omega
    · rw [decide_eq_false hxv, decide_eq_true hxw] at h
      simp only [cond_true, cond_false] at h
      omega
    · rw [decide_eq_false hxv, decide_eq_false hxw] at h
      simp only [cond_false, Nat.add_right_cancel_iff] at h
      exact ih ((List.mem_cons.mp hv).resolve_left fun hh => hxv hh.symm)
        ((List.mem_cons.mp hw).resolve_left fun hh => hxw hh.symm) h

theorem var2id_inj (loops : List ForLoop) {v w : Nat}
    (hv : v ∈ loops.map ForLoop.loop_var) (hw : w ∈ loops.map ForLoop.loop_var)
    (h : var2id loops v = var2id loops w) : v = w :=
  findIdx_eq_inj hv hw h

/-! ## Lemmas about the layout synthesizer -/

theorem splitDigitsLoop_length (es : List Int) (x : PrimExpr) :
    (splitDigitsLoop es x).length = es.length := by
  induction es generalizing x with
  | nil => rfl
  | cons e rest ih => simp [splitDigitsLoop, ih]

theorem reorderIdx_length (split : List PrimExpr) (order : List Nat)
    (r : List PrimExpr) (h : reorderIdx split order = .ok r) :
    r.length = order.length := by
  induction order generalizing r with
  | nil =>
    rw [reorderIdx] at h
    cases h
    rfl
  | cons i rest ih =>
    rw [reorderIdx] at h
    split at h
    · split at h
      · cases h
        simp only [List.length_cons, Nat.add_right_cancel_iff]
        exact ih _ (by assumption)
      · cases h
    · cases h

theorem reorderIdx_ok (split : List PrimExpr) (order : List Nat)
    (h : ∀ i ∈ order, i < split.length) :
    reorderIdx split order = .ok (order.map (fun i => split.getD i default)) := by
  induction order with
  | nil => rfl
  | cons i rest ih =>
    have hi : i < split.length := h i (List.mem_cons_self i rest)
    rw [reorderIdx, List.getElem?_eq_getElem hi,
      ih (fun j hj => h j (List.mem_cons_of_mem _ hj))]
    simp [List.getD_eq_getElem?_getD, List.getElem?_eq_getElem hi]

theorem fromFunc_ok (ndim : Nat) (f : List Nat → Except String (List PrimExpr))
    (fin : List PrimExpr) (h : f (List.range ndim) = .ok fin) :
    IndexMap.fromFunc ndim f = .ok ⟨List.range ndim, fin⟩ := by
  rw [IndexMap.fromFunc, h]

theorem f_alter_layout_ok (strides : List PrimExpr) (splits : List SplitExpr)
    (loops : List ForLoop) (shape : List PrimExpr) (phFlat : PrimExpr)
    (hph : f_flatten_index shape.length strides
        ((List.range shape.length).map PrimExpr.var) = .ok phFlat) :
    f_alter_layout strides splits (canonicalOrder splits loops) shape
        (List.range shape.length) =
      .ok ((canonicalOrder splits loops).map (fun i =>
        ((splitDigitsLoop ((splits.map SplitExpr.extent).reverse) phFlat).reverse).getD
          i default)) := by
  rw [f_alter_layout, if_pos (by simp), hph]
  exact reorderIdx_ok _ _ (fun i hi => by
    rw [List.length_reverse, splitDigitsLoop_length, List.length_reverse,
      List.length_map]
    exact canonicalOrder_mem splits loops i hi)

theorem SuggestIndexMap_ok_of (detect : Detector) (buffer : Buffer)
    (indices : List PrimExpr) (loops : List ForLoop) (predicate : PrimExpr)
    (strides : List PrimExpr) (flat : PrimExpr) (splits : List SplitExpr)
    (hs : GetStrides buffer = .ok strides)
    (hf : f_flatten_index buffer.shape.length strides indices = .ok flat)
    (hc : Collect detect flat (itersOf loops) predicate false = .ok splits) :
    SuggestIndexMap detect buffer indices loops predicate =
      if splits.isEmpty then .ok none
      else
        match IndexMap.fromFunc buffer.shape.length
            (f_alter_layout strides splits (canonicalOrder splits loops)
              buffer.shape) with
        | .ok im => .ok (some im)
        | .error m => .error m := by
  simp only [SuggestIndexMap, hs, hf, hc]

theorem SuggestIndexMap_success_shape (detect : Detector) (buffer : Buffer)
    (indices : List PrimExpr) (loops : List ForLoop) (predicate : PrimExpr)
    (strides : List PrimExpr) (flat : PrimExpr) (splits : List SplitExpr)
    (phFlat : PrimExpr)
    (hs : GetStrides buffer = .ok strides)
    (hf : f_flatten_index buffer.shape.length strides indices = .ok flat)
    (hc : Collect detect flat (itersOf loops) predicate false = .ok splits)
    (hne : splits ≠ [])
    (hph : f_flatten_index buffer.shape.length strides
        ((List.range buffer.shape.length).map PrimExpr.var) = .ok phFlat) :
    SuggestIndexMap detect buffer indices loops predicate =
      .ok (some ⟨List.range buffer.shape.length,
        (canonicalOrder splits loops).map (fun i =>
          ((splitDigitsLoop ((splits.map SplitExpr.extent).reverse)
              phFlat).reverse).getD i default)⟩) := by
  rw [SuggestIndexMap_ok_of detect buffer indices loops predicate strides flat
      splits hs hf hc,
    if_neg (by simpa [List.isEmpty_iff] using hne),
    fromFunc_ok _ _ _ (f_alter_layout_ok strides splits loops buffer.shape
      phFlat hph)]

/-! ## Claim theorems -/

/-- C1, counterexample: for the successful call of example A, the returned
remapping function takes 1 placeholder coordinate (the buffer rank) to 2
final index expressions (the number of split components) -- not, as the
claim states, a tuple of arity 2 (number of split components) to a tuple
of arity 1 (buffer rank). -/
theorem C1_remap_arity_counterexample :
    SuggestIndexMap detectA bufA idxA loopsA (.const 1) = .ok (some imA) ∧
    Collect detectA flatA (itersOf loopsA) (.const 1) false = .ok splitsA ∧
    bufA.shape.length = 1 ∧ splitsA.length = 2 ∧
    imA.initial_indices.length = 1 ∧ imA.final_indices.length = 2 ∧
    ¬(imA.initial_indices.length = splitsA.length ∧
      imA.final_indices.length = bufA.shape.length) :=
  ⟨rfl, rfl, rfl, rfl, rfl, rfl, by decide⟩

/-- C1 (amended): for every successful call, the returned
`RemappingFunction` is a pure symbolic function from the original
per-dimension coordinate tuple, whose arity equals the buffer rank, to the
new coordinate tuple, whose arity equals the number of split components. -/
theorem C1_remap_arity (detect : Detector) (buffer : Buffer)
    (indices : List PrimExpr) (loops : List ForLoop) (predicate : PrimExpr)
    (strides : List PrimExpr) (flat : PrimExpr) (splits : List SplitExpr)
    (phFlat : PrimExpr)
    (hs : GetStrides buffer = .ok strides)
    (hf : f_flatten_index buffer.shape.length strides indices = .ok flat)
    (hc : Collect detect flat (itersOf loops) predicate false = .ok splits)
    (hne : splits ≠ [])
    (hph : f_flatten_index buffer.shape.length strides
        ((List.range buffer.shape.length).map PrimExpr.var) = .ok phFlat) :
    ∃ im : IndexMap,
      SuggestIndexMap detect buffer indices loops predicate = .ok (some im) ∧
      im.initial_indices.length = buffer.shape.length ∧
      im.final_indices.length = splits.length := by
  refine ⟨_, SuggestIndexMap_success_shape detect buffer indices loops predicate
    strides flat splits phFlat hs hf hc hne hph, ?_, ?_⟩
  · simp
  · simp [canonicalOrder_length]

/-- C1, witness: the amended arity theorem at example A. -/
theorem C1_remap_arity_witness :
    ∃ im : IndexMap,
      SuggestIndexMap detectA bufA idxA loopsA (.const 1) = .ok (some im) ∧
      im.initial_indices.length = bufA.shape.length ∧
      im.final_indices.length = splitsA.length :=
  C1_remap_arity detectA bufA idxA loopsA (.const 1) stridesA flatA splitsA
    phFlatA rfl rfl rfl (by decide) rfl

/-- C2, counterexample: in example A the canonical sort order is `[1, 0]`
(not the identity), the digit extraction uses the extents in encounter
order, and the remapping differs semantically from the construction the
claim describes (digits by canonically sorted extents, reversed, taken
directly as the output): at placeholder value 5 the code yields `[1, 1]`
while the described construction yields `[0, 5]`. -/
theorem C2_digit_extraction_counterexample :
    SuggestIndexMap detectA bufA idxA loopsA (.const 1) = .ok (some imA) ∧
    Collect detectA flatA (itersOf loopsA) (.const 1) false = .ok splitsA ∧
    canonicalOrder splitsA loopsA = [1, 0] ∧
    (canonicalOrder splitsA loopsA).map (fun i => splitsA.getD i default) =
      sortedCompsA ∧
    f_flatten_index bufA.shape.length stridesA
      ((List.range bufA.shape.length).map PrimExpr.var) = .ok phFlatA ∧
    imA.final_indices.map (evalE exA) = [1, 1] ∧
    (claimDescribedOutput sortedCompsA phFlatA).map (evalE exA) = [0, 5] ∧
    imA.final_indices.map (evalE exA) ≠
      (claimDescribedOutput sortedCompsA phFlatA).map (evalE exA) :=
  ⟨rfl, rfl, rfl, rfl, rfl, by decide, by decide, by decide⟩

/-- C2 (amended): for every successful synthesis, the output tuple is
obtained by decomposing the flattened placeholder index digit-by-digit
with the extents of the components taken in their original encounter
order, processing from the last collected component to the first
(remainder = flattened mod extent, flattened = flattened div extent),
reversing the collected remainders to the front-to-back encounter order,
and then permuting that sequence through the canonical sort order (entry k
of the output is the digit at position `order[k]`). -/
theorem C2_digit_extraction (detect : Detector) (buffer : Buffer)
    (indices : List PrimExpr) (loops : List ForLoop) (predicate : PrimExpr)
    (strides : List PrimExpr) (flat : PrimExpr) (splits : List SplitExpr)
    (phFlat : PrimExpr)
    (hs : GetStrides buffer = .ok strides)
    (hf : f_flatten_index buffer.shape.length strides indices = .ok flat)
    (hc : Collect detect flat (itersOf loops) predicate false = .ok splits)
    (hne : splits ≠ [])
    (hph : f_flatten_index buffer.shape.length strides
        ((List.range buffer.shape.length).map PrimExpr.var) = .ok phFlat) :
    SuggestIndexMap detect buffer indices loops predicate =
      .ok (some ⟨List.range buffer.shape.length,
        (canonicalOrder splits loops).map (fun i =>
          ((splitDigitsLoop ((splits.map SplitExpr.extent).reverse)
              phFlat).reverse).getD i default)⟩) :=
  SuggestIndexMap_success_shape detect buffer indices loops predicate strides
    flat splits phFlat hs hf hc hne hph

/-- C2, witness: the amended digit-extraction theorem at example A. -/
theorem C2_digit_extraction_witness :
    SuggestIndexMap detectA bufA idxA loopsA (.const 1) =
      .ok (some ⟨[0],
        [.floormod phFlatA (.const 4),
         .floormod (.floordiv phFlatA (.const 4)) (.const 8)]⟩) :=
  C2_digit_extraction detectA bufA idxA loopsA (.const 1) stridesA flatA
    splitsA phFlatA rfl rfl rfl (by decide) rfl

/-- C3, counterexample: a call whose index sequence is longer than the
buffer rank (2 indices against rank 1) triggers no assertion at all -- it
runs to completion and even returns a remapping, with the extra index
silently ignored. -/
theorem C3_arity_counterexample :
    ([PrimExpr.var 0, PrimExpr.var 99] : List PrimExpr).length = 2 ∧
    bufR1.shape.length = 1 ∧
    SuggestIndexMap detectR1 bufR1 [PrimExpr.var 0, PrimExpr.var 99] loopsR1
      (.const 1) = .ok (some imR1) :=
  ⟨rfl, rfl, rfl⟩

/-- C3 (amended): explicit strides whose length differs from the shape
length are a fatal assertion, and an index sequence shorter than the
buffer rank is a fatal assertion (the bounds-checked array access in the
flattening loop); but an index sequence longer than the buffer rank is not
detected: the extra indices are ignored, and the call behaves exactly as
if only the first rank-many indices had been supplied. -/
theorem C3_arity_checks :
    (∀ (detect : Detector) (buffer : Buffer) (indices : List PrimExpr)
        (loops : List ForLoop) (predicate : PrimExpr),
      buffer.strides ≠ [] → buffer.strides.length ≠ buffer.shape.length →
      SuggestIndexMap detect buffer indices loops predicate =
        .error stridesArityMsg) ∧
    (∀ (detect : Detector) (buffer : Buffer) (indices : List PrimExpr)
        (loops : List ForLoop) (predicate : PrimExpr) (strides : List PrimExpr),
      GetStrides buffer = .ok strides →
      indices.length < buffer.shape.length →
      SuggestIndexMap detect buffer indices loops predicate =
        .error arrayOobMsg) ∧
    (∀ (detect : Detector) (buffer : Buffer) (indices : List PrimExpr)
        (loops : List ForLoop) (predicate : PrimExpr),
      buffer.shape.length ≤ indices.length →
      SuggestIndexMap detect buffer indices loops predicate =
        SuggestIndexMap detect buffer (indices.take buffer.shape.length)
          loops predicate) := by
  refine ⟨?_, ?_, ?_⟩
  · intro detect buffer indices loops predicate h hlen
    simp only [SuggestIndexMap, GetStrides_mismatch buffer h hlen]
  · intro detect buffer indices loops predicate strides hs hlt
    have hlen := GetStrides_length buffer strides hs
    have herr : f_flatten_index buffer.shape.length strides indices =
        .error arrayOobMsg :=
      flattenGo_error strides indices 0 buffer.shape.length _ (by omega)
        (by omega) (by omega)
    simp only [SuggestIndexMap, hs, herr]
  · intro detect buffer indices loops predicate hge
    cases hs : GetStrides buffer with
    | error m => simp only [SuggestIndexMap, hs]
    | ok strides =>
      have htake : f_flatten_index buffer.shape.length strides
          (indices.take buffer.shape.length) =
          f_flatten_index buffer.shape.length strides indices :=
        flattenGo_take strides indices 0 buffer.shape.length
          buffer.shape.length _ (by omega)
      simp only [SuggestIndexMap, hs, htake]

/-- C3, witness: the three amended arity facts at concrete calls: a
rank-1 buffer with 2 explicit strides aborts; a rank-1 buffer given no
indices aborts in the flattening loop; a rank-1 buffer given 2 indices
behaves as on the first index alone. -/
theorem C3_arity_checks_witness :
    SuggestIndexMap detectNone bufBadStrides [PrimExpr.var 0] loopsR1
      (.const 1) = .error stridesArityMsg ∧
    SuggestIndexMap detectNone bufR1 [] loopsR1 (.const 1) =
      .error arrayOobMsg ∧
    SuggestIndexMap detectR1 bufR1 [PrimExpr.var 0, PrimExpr.var 99] loopsR1
      (.const 1) =
      SuggestIndexMap detectR1 bufR1
        ([PrimExpr.var 0, PrimExpr.var 99].take bufR1.shape.length) loopsR1
        (.const 1) :=
  ⟨C3_arity_checks.1 detectNone bufBadStrides [PrimExpr.var 0] loopsR1
      (.const 1) (by decide) (by decide),
   C3_arity_checks.2.1 detectNone bufR1 [] loopsR1 (.const 1) [.const 1]
      rfl (by decide),
   C3_arity_checks.2.2 detectR1 bufR1 [PrimExpr.var 0, PrimExpr.var 99]
      loopsR1 (.const 1) (by decide)⟩

/-- C4 (confirmed): in the canonical order, a component whose source
variable occupies an earlier nesting position in the loop sequence comes
before one occupying a later position, and between two components of the
same source variable the one with the larger lower factor comes first. -/
theorem C4_canonical_order (split_exprs : List SplitExpr)
    (loops : List ForLoop)
    (h : ∀ s ∈ split_exprs, s.source ∈ loops.map ForLoop.loop_var) :
    ((canonicalOrder split_exprs loops).map
        (fun i => split_exprs.getD i default)).Pairwise
      (fun a b => var2id loops a.source < var2id loops b.source ∨
        (a.source = b.source ∧ b.lower_factor ≤ a.lower_factor)) := by
  rw [List.pairwise_map]
  refine List.Pairwise.imp_of_mem ?_ (canonicalOrder_sorted split_exprs loops)
  intro ia ib hia hib hle
  have hia' := canonicalOrder_mem _ _ ia hia
  have hib' := canonicalOrder_mem _ _ ib hib
  rw [orderLe_iff] at hle
  rcases Nat.lt_or_ge (var2id loops (split_exprs.getD ia default).source)
      (var2id loops (split_exprs.getD ib default).source) with hlt | hge
  · exact Or.inl hlt
  · have heq : var2id loops (split_exprs.getD ia default).source
        = var2id loops (split_exprs.getD ib default).source := by omega
    have hmem_a : split_exprs.getD ia default ∈ split_exprs := by
      rw [List.getD_eq_getElem?_getD, List.getElem?_eq_getElem hia']
      exact List.getElem_mem hia'
    have hmem_b : split_exprs.getD ib default ∈ split_exprs := by
      rw [List.getD_eq_getElem?_getD, List.getElem?_eq_getElem hib']
      exact List.getElem_mem hib'
    exact Or.inr ⟨var2id_inj loops (h _ hmem_a) (h _ hmem_b) heq, hle.2 heq⟩

/-- C4, witness: the ordering theorem at the components of example A,
where the canonical order swaps the encounter order. -/
theorem C4_canonical_order_witness :
    ((canonicalOrder splitsA loopsA).map
        (fun i => splitsA.getD i default)).Pairwise
      (fun a b => var2id loopsA a.source < var2id loopsA b.source ∨
        (a.source = b.source ∧ b.lower_factor ≤ a.lower_factor)) :=
  C4_canonical_order splitsA loopsA (by decide)

/-- C5 (confirmed): with no explicit strides the deriver returns rank-many
strides with the last equal to the constant 1 and
`stride[i] = stride[i+1] * shape[i+1]` built right to left, so a shape
`[a, b, c]` yields strides evaluating to `[b*c, c, 1]`; rank 0 yields the
empty sequence; and explicit strides of matching length are returned
unchanged. -/
theorem C5_stride_derivation :
    (∀ buffer : Buffer, buffer.strides = [] →
      GetStrides buffer = .ok (stridesLoop buffer.shape.reverse (.const 1)) ∧
      (stridesLoop buffer.shape.reverse (.const 1)).length =
        buffer.shape.length) ∧
    (∀ (shape : List PrimExpr) (i : Nat), i + 1 < shape.length →
      (stridesLoop shape.reverse (.const 1))[i]? =
        some (.mul ((stridesLoop shape.reverse (.const 1)).getD (i + 1) default)
          (shape.getD (i + 1) default))) ∧
    (∀ shape : List PrimExpr, shape ≠ [] →
      (stridesLoop shape.reverse (.const 1)).getLast? = some (.const 1)) ∧
    GetStrides ⟨[], []⟩ = .ok [] ∧
    (∀ (a b c : PrimExpr) (σ : Nat → Int),
      (stridesLoop ([a, b, c] : List PrimExpr).reverse (.const 1)).map
          (evalE σ) =
        [evalE σ b * evalE σ c, evalE σ c, 1]) ∧
    (∀ buffer : Buffer, buffer.strides ≠ [] →
      buffer.strides.length = buffer.shape.length →
      GetStrides buffer = .ok buffer.strides) := by
  refine ⟨?_, ?_, ?_, rfl, ?_, ?_⟩
  · intro b h
    exact ⟨GetStrides_derived b h, stridesLoop_reverse_length _ _⟩
  · intro shape i h
    exact stridesLoop_reverse_getElem shape _ i h
  · intro shape h
    exact stridesLoop_reverse_getLast shape _ h
  · intro a b c σ
    show (stridesLoop [c, b, a] (.const 1)).map (evalE σ) = _
    simp [stridesLoop, evalE, mul_comm]
  · intro b h hlen
    exact GetStrides_explicit b h hlen

/-- C5, witness: the stride facts at concrete buffers: derived strides of
`bufR1`; the recurrence and last element of a symbolic rank-3 shape; the
evaluated strides of that shape; and explicit strides returned
unchanged. -/
theorem C5_stride_derivation_witness :
    GetStrides bufR1 = .ok [.const 1] ∧
    (stridesLoop ([.var 10, .var 11, .var 12] : List PrimExpr).reverse
        (.const 1))[0]? =
      some (.mul (.mul (.const 1) (.var 12)) (.var 11)) ∧
    (stridesLoop ([.var 10, .var 11, .var 12] : List PrimExpr).reverse
        (.const 1)).getLast? = some (.const 1) ∧
    (stridesLoop ([.var 10, .var 11, .var 12] : List PrimExpr).reverse
        (.const 1)).map (evalE (fun i => Int.ofNat i)) =
      [11 * 12, 12, 1] ∧
    GetStrides ⟨[.const 4], [.const 7]⟩ = .ok [.const 7] := by
  obtain ⟨h1, h2, h3, _, h5, h6⟩ := C5_stride_derivation
  exact ⟨(h1 bufR1 rfl).1, h2 [.var 10, .var 11, .var 12] 0 (by decide),
    h3 [.var 10, .var 11, .var 12] (by decide),
    h5 (.var 10) (.var 11) (.var 12) (fun i => Int.ofNat i),
    h6 ⟨[.const 4], [.const 7]⟩ (by decide) rfl⟩

/-- C6 (confirmed): when some split node of the detected decomposition has
a lower factor or extent that is not a statically known integer constant
(and the decomposition is well-formed, with no node of unexpected source
type), extraction returns the empty component list and the overall call
returns no suggestion -- not a fatal error. -/
theorem C6_dynamic_factor_declines (detect : Detector) (buffer : Buffer)
    (indices : List PrimExpr) (loops : List ForLoop) (predicate : PrimExpr)
    (strides : List PrimExpr) (flat : PrimExpr) (e : IterSumExpr)
    (hs : GetStrides buffer = .ok strides)
    (hf : f_flatten_index buffer.shape.length strides indices = .ok flat)
    (hd : detect (simplify flat) (itersOf loops) predicate false = [e])
    (hnc : hasNonConstArgs e.args = true)
    (hno : containsOtherArgs e.args = false) :
    Collect detect flat (itersOf loops) predicate false = .ok [] ∧
    SuggestIndexMap detect buffer indices loops predicate = .ok none := by
  have hc := Collect_clean detect flat (itersOf loops) predicate false e hd hno
  rw [hnc, if_pos rfl] at hc
  exact ⟨hc, by simp only [SuggestIndexMap, hs, hf, hc]; rfl⟩

/-- C6, witness: a decomposition whose single split node has the dynamic
lower factor `var 5` makes the rank-1 call decline. -/
theorem C6_dynamic_factor_declines_witness :
    Collect detectNC (.add (.const 0) (.mul (.const 1) (.var 0)))
      (itersOf loopsR1) (.const 1) false = .ok [] ∧
    SuggestIndexMap detectNC bufR1 [PrimExpr.var 0] loopsR1 (.const 1) =
      .ok none :=
  C6_dynamic_factor_declines detectNC bufR1 [PrimExpr.var 0] loopsR1
    (.const 1) [.const 1] (.add (.const 0) (.mul (.const 1) (.var 0))) sumNC
    rfl rfl rfl rfl rfl

/-- C7 (confirmed): an empty split-component list makes `SuggestIndexMap`
skip synthesis and return no suggestion; the list is empty when the
detector finds no decomposition and when the decomposition has no split
terms; and a rank-0 buffer derives empty strides, flattens to the zero
constant, and (with the detector finding no decomposition in a constant,
per its contract) always yields no suggestion. -/
theorem C7_empty_split_list :
    (∀ (detect : Detector) (buffer : Buffer) (indices : List PrimExpr)
        (loops : List ForLoop) (predicate : PrimExpr) (strides : List PrimExpr)
        (flat : PrimExpr),
      GetStrides buffer = .ok strides →
      f_flatten_index buffer.shape.length strides indices = .ok flat →
      Collect detect flat (itersOf loops) predicate false = .ok [] →
      SuggestIndexMap detect buffer indices loops predicate = .ok none) ∧
    (∀ (detect : Detector) (index predicate : PrimExpr) (iters : IterDom)
        (bij : Bool),
      detect (simplify index) iters predicate bij = [] →
      Collect detect index iters predicate bij = .ok []) ∧
    (∀ (detect : Detector) (index predicate : PrimExpr) (iters : IterDom)
        (bij : Bool) (e : IterSumExpr),
      detect (simplify index) iters predicate bij = [e] → e.args = [] →
      Collect detect index iters predicate bij = .ok []) ∧
    (∀ (detect : Detector) (buffer : Buffer) (indices : List PrimExpr)
        (loops : List ForLoop) (predicate : PrimExpr),
      buffer.shape = [] → buffer.strides = [] →
      detect (.const 0) (itersOf loops) predicate false = [] →
      GetStrides buffer = .ok [] ∧
      f_flatten_index buffer.shape.length [] indices = .ok (.const 0) ∧
      SuggestIndexMap detect buffer indices loops predicate = .ok none) := by
  refine ⟨?_, ?_, ?_, ?_⟩
  · intro detect buffer indices loops predicate strides flat hs hf hc
    simp only [SuggestIndexMap, hs, hf, hc]
    rfl
  · intro detect index predicate iters bij h
    exact Collect_detect_empty detect index iters predicate bij h
  · intro detect index predicate iters bij e h ha
    exact Collect_args_empty detect index iters predicate bij e h ha
  · intro detect buffer indices loops predicate hsh hst hdet
    have hs : GetStrides buffer = .ok [] := by
      rw [GetStrides_derived buffer hst, hsh]
      rfl
    have hf : f_flatten_index buffer.shape.length [] indices =
        .ok (.const 0) := by
      rw [hsh]
      rfl
    have hc : Collect detect (.const 0) (itersOf loops) predicate false =
        .ok [] :=
      Collect_detect_empty detect (.const 0) (itersOf loops) predicate false
        hdet
    refine ⟨hs, hf, ?_⟩
    simp only [SuggestIndexMap, hs, hf, hc]
    rfl

/-- C7, witness: the empty-component facts at concrete calls, in
particular the rank-0 buffer with empty shape and strides. -/
theorem C7_empty_split_list_witness :
    SuggestIndexMap detectNone bufR1 [PrimExpr.var 0] loopsR1 (.const 1) =
      .ok none ∧
    Collect detectNone (.var 0) (itersOf loopsR1) (.const 1) false = .ok [] ∧
    Collect detectEmptyArgs (.var 0) (itersOf loopsR1) (.const 1) false =
      .ok [] ∧
    (GetStrides ⟨[], []⟩ = .ok [] ∧
     f_flatten_index (0 : Nat) [] ([] : List PrimExpr) = .ok (.const 0) ∧
     SuggestIndexMap detectNone ⟨[], []⟩ [] [] (.const 1) = .ok none) :=
  ⟨C7_empty_split_list.1 detectNone bufR1 [PrimExpr.var 0] loopsR1 (.const 1)
      [.const 1] (.add (.const 0) (.mul (.const 1) (.var 0))) rfl rfl rfl,
   C7_empty_split_list.2.1 detectNone (.var 0) (.const 1)
      (itersOf loopsR1) false rfl,
   C7_empty_split_list.2.2.1 detectEmptyArgs (.var 0) (.const 1)
      (itersOf loopsR1) false sumEmptyArgs rfl rfl,
   C7_empty_split_list.2.2.2 detectNone ⟨[], []⟩ [] [] (.const 1) rfl rfl rfl⟩

/-- C8 (confirmed): on any well-formed decomposition (no unexpected source
nodes), the visitor flattens nested sums recursively into the single
output list: the state is extended exactly by the convertible leaves in
the encounter order of the depth-first walk, with the nested structure
discarded (and the failure flag records whether any leaf was not
convertible). -/
theorem C8_dfs_flattening (e : IterSumExpr) (st : CState)
    (h : containsOtherArgs e.args = false) :
    visitSum e st = .ok ⟨st.failed || hasNonConstArgs e.args,
      st.exprs ++ dfsLeavesArgs e.args⟩ :=
  visitArgs_clean e.args st h

/-- C8, witness: the visitor on a decomposition with a nested sum appends
its three leaves in depth-first encounter order after the previously
collected component. -/
theorem C8_dfs_flattening_witness :
    visitSum sumW stW =
      .ok ⟨false, [⟨9, 9, 9⟩, ⟨0, 1, 4⟩, ⟨1, 1, 2⟩, ⟨2, 1, 3⟩]⟩ :=
  C8_dfs_flattening sumW stW rfl

/-- C9 (confirmed): a split node whose source is neither a direct variable
nor a nested sum makes the visitor abort with the failed-assertion error
from any state, and makes the whole extraction abort likewise -- never a
degraded or empty result. -/
theorem C9_bad_source_aborts (detect : Detector) (index : PrimExpr)
    (iters : IterDom) (predicate : PrimExpr) (bij : Bool) (e : IterSumExpr)
    (hd : detect (simplify index) iters predicate bij = [e])
    (ho : containsOtherArgs e.args = true) :
    (∀ st, visitSum e st = .error unexpectedTypeMsg) ∧
    Collect detect index iters predicate bij = .error unexpectedTypeMsg :=
  ⟨fun st => visitArgs_other e.args st ho,
   Collect_bad detect index iters predicate bij e hd ho⟩

/-- C9, witness: a decomposition with a bad-source node nested behind a
dynamic-factor leaf aborts both the visitor and the extraction. -/
theorem C9_bad_source_aborts_witness :
    visitSum sumBad stW = .error unexpectedTypeMsg ∧
    Collect detectBad (.const 0) [] (.const 1) false =
      .error unexpectedTypeMsg :=
  ⟨(C9_bad_source_aborts detectBad (.const 0) [] (.const 1) false sumBad
      rfl rfl).1 stW,
   (C9_bad_source_aborts detectBad (.const 0) [] (.const 1) false sumBad
      rfl rfl).2⟩

/-- C10 (confirmed): when the detection collaborator returns two or more
decompositions, the `ICHECK` on the result size fails: the extraction and
the whole analysis abort with a fatal error instead of declining with no
suggestion. -/
theorem C10_multiple_decompositions_abort (detect : Detector)
    (buffer : Buffer) (indices : List PrimExpr) (loops : List ForLoop)
    (predicate : PrimExpr) (strides : List PrimExpr) (flat : PrimExpr)
    (e1 e2 : IterSumExpr) (rest : List IterSumExpr)
    (hs : GetStrides buffer = .ok strides)
    (hf : f_flatten_index buffer.shape.length strides indices = .ok flat)
    (hd : detect (simplify flat) (itersOf loops) predicate false =
      e1 :: e2 :: rest) :
    Collect detect flat (itersOf loops) predicate false =
      .error iterSumSizeMsg ∧
    SuggestIndexMap detect buffer indices loops predicate =
      .error iterSumSizeMsg := by
  have hc := Collect_two detect flat (itersOf loops) predicate false e1 e2
    rest hd
  exact ⟨hc, by simp only [SuggestIndexMap, hs, hf, hc]⟩

/-- C10, witness: a detector returning two decompositions aborts the
rank-1 call. -/
theorem C10_multiple_decompositions_abort_witness :
    Collect detectTwo (.add (.const 0) (.mul (.const 1) (.var 0)))
      (itersOf loopsR1) (.const 1) false = .error iterSumSizeMsg ∧
    SuggestIndexMap detectTwo bufR1 [PrimExpr.var 0] loopsR1 (.const 1) =
      .error iterSumSizeMsg :=
  C10_multiple_decompositions_abort detectTwo bufR1 [PrimExpr.var 0] loopsR1
    (.const 1) [.const 1] (.add (.const 0) (.mul (.const 1) (.var 0)))
    sumEmptyArgs sumEmptyArgs [] rfl rfl rfl

end TVMLayout
